import Mathlib

/-!
Shallow embedding of the gsdocker/encoding xlsx row decoder
(src/xlsx/reader.go) and proofs about it.

Modelling conventions:
* Go `reflect` values are modelled by the inductive `GoValue`, Go types by
  `GoType`.  Machine integers use `Int`/`Nat`; the decoder always parses at
  bit size 64 and all modelled integer fields are full-width (`int`/`uint64`),
  so no truncation arises.
* In-place mutation through a pointer is modelled by state passing: every
  operation that mutates the target record returns the updated value.
* Go panics (both the deliberate `gserrors.Panicf` aborts and `reflect`
  runtime faults) are modelled by the `Except PanicVal` monad / an explicit
  `panicked` status; the `defer`/`recover` block of `RowReader.Read` is the
  function that maps a `panicked` status to a returned error.
* External collaborators (the tealeg/xlsx cell types, `regexp`, `strconv`)
  are modelled from their documented behavior: cells are their string
  values, a compiled regular expression is a function returning the
  `FindStringSubmatch` result, and `strconv.ParseInt`/`ParseUint` with
  base 0 and bit size 64 are implemented below.
-/

/-- Kind mirrors reflect.Kind for the kinds the decoder touches. -/
inductive Kind where
  | boolK | intK | uintK | floatK | stringK
  | structK | ptrK | sliceK | arrayK | ifaceK
deriving DecidableEq

/-- GoType models the static Go types reachable by the decoder.  Signed
integer kinds Int..Int64 are collapsed into `int` and unsigned ones into
`uint` (the decoder treats each group uniformly and parses at bit size 64);
`float` likewise stands for Float32/Float64.  Array lengths are not
modelled: the decoder never reads or writes array contents. -/
inductive GoType where
  | bool : GoType
  | int : GoType
  | uint : GoType
  | float : GoType
  | string : GoType
  | structT : List (String × GoType) → GoType
  | ptr : GoType → GoType
  | slice : GoType → GoType
  | array : GoType → GoType
  | iface : GoType

/-- GoValue models Go runtime values.  A struct value stores, per field,
its name, declared type and current value (mirroring reflect's
`StructField` plus field value).  `nilPtr t` is the nil pointer of type
`*t`; `nilSliceV t` the nil slice of type `[]t` (the zero value of a slice
field); `nilIface` a nil interface value (also the `nil` argument case of
`Read`).  Float values are kept as their source text: no claim inspects a
float, only the parse success is modelled. -/
inductive GoValue where
  | boolV : Bool → GoValue
  | intV : Int → GoValue
  | uintV : Nat → GoValue
  | floatV : String → GoValue
  | stringV : String → GoValue
  | structV : List (String × GoType × GoValue) → GoValue
  | nilPtr : GoType → GoValue
  | ptrV : GoValue → GoValue
  | nilSliceV : GoType → GoValue
  | sliceV : GoType → List GoValue → GoValue
  | arrayV : GoType → List GoValue → GoValue
  | nilIface : GoValue

/-- Field list of a struct value: (name, declared type, current value). -/
abbrev FieldsV := List (String × GoType × GoValue)

mutual

/-- Structural equality of Go types, modelling Go type identity (the test
`reflect` performs for assignability of the identical types arising here). -/
def GoType.beq : GoType → GoType → Bool
  | .bool, .bool => true
  | .int, .int => true
  | .uint, .uint => true
  | .float, .float => true
  | .string, .string => true
  | .iface, .iface => true
  | .ptr a, .ptr b => GoType.beq a b
  | .slice a, .slice b => GoType.beq a b
  | .array a, .array b => GoType.beq a b
  | .structT fs, .structT gs => GoType.beqFields fs gs
  | _, _ => false

/-- Elementwise equality of struct field type lists. -/
def GoType.beqFields : List (String × GoType) → List (String × GoType) → Bool
  | [], [] => true
  | (n, t) :: fs, (m, u) :: gs =>
      n == m && GoType.beq t u && GoType.beqFields fs gs
  | _, _ => false

end


/-- Kind of a runtime value, as reflect.Value.Kind reports it. -/
def kindOfV : GoValue → Kind
  | .boolV _ => .boolK
  | .intV _ => .intK
  | .uintV _ => .uintK
  | .floatV _ => .floatK
  | .stringV _ => .stringK
  | .structV _ => .structK
  | .nilPtr _ => .ptrK
  | .ptrV _ => .ptrK
  | .nilSliceV _ => .sliceK
  | .sliceV _ _ => .sliceK
  | .arrayV _ _ => .arrayK
  | .nilIface => .ifaceK

/-- Static type of a runtime value (reflect.Value.Type).  Struct field
types are stored in the value, so only pointers recurse. -/
def typeOf : GoValue → GoType
  | .boolV _ => .bool
  | .intV _ => .int
  | .uintV _ => .uint
  | .floatV _ => .float
  | .stringV _ => .string
  | .structV fs => .structT (fs.map (fun f => (f.1, f.2.1)))
  | .nilPtr t => .ptr t
  | .ptrV v => .ptr (typeOf v)
  | .nilSliceV t => .slice t
  | .sliceV t _ => .slice t
  | .arrayV t _ => .array t
  | .nilIface => .iface

mutual

/-- Zero value of a type (what reflect.New allocates). -/
def zeroValue : GoType → GoValue
  | .bool => .boolV false
  | .int => .intV 0
  | .uint => .uintV 0
  | .float => .floatV ("0")
  | .string => .stringV ("")
  | .structT fields => .structV (zeroFields fields)
  | .ptr t => .nilPtr t
  | .slice t => .nilSliceV t
  | .array t => .arrayV t []
  | .iface => .nilIface

/-- Zero field list of a struct type. -/
def zeroFields : List (String × GoType) → FieldsV
  | [] => []
  | (n, t) :: rest => (n, t, zeroValue t) :: zeroFields rest

end

mutual

/-- Size of a Go type: an upper bound on the nesting depth of sub-record
types used as conversion fuel (every type has size at least 1, and the
element type, pointee and field types of a slice type all have strictly
smaller size than the slice type itself). -/
def GoType.sizeT : GoType → Nat
  | .bool => 1
  | .int => 1
  | .uint => 1
  | .float => 1
  | .string => 1
  | .iface => 1
  | .structT fs => GoType.sizeFs fs + 1
  | .ptr t => GoType.sizeT t + 1
  | .slice t => GoType.sizeT t + 1
  | .array t => GoType.sizeT t + 1

/-- Combined size of a struct's field types. -/
def GoType.sizeFs : List (String × GoType) → Nat
  | [] => 1
  | (_, t) :: rest => GoType.sizeT t + GoType.sizeFs rest + 1

end

/-- ParseErr mirrors strconv's ErrSyntax / ErrRange. -/
inductive ParseErr where
  | syntaxE
  | rangeE
deriving DecidableEq

/-- Model of strconv's lower(c): the byte with bit 0x20 set. -/
def lowerCh (c : Char) : Char := Char.ofNat (c.toNat ||| 32)

/-- Digit value of a character per the strconv.ParseUint loop:
decimal digits, then letters a..z (after lowering) as 10..35. -/
def goDigitVal (c : Char) : Option Nat :=
  if '0' ≤ c ∧ c ≤ '9' then some (c.toNat - '0'.toNat)
  else
    let l := lowerCh c
    if 'a' ≤ l ∧ l ≤ 'z' then some (l.toNat - 'a'.toNat + 10)
    else none

/-- Base detection of strconv.ParseUint with base argument 0: a leading
"0b"/"0o"/"0x" (case-insensitive, with at least one further character)
selects base 2/8/16, a bare leading "0" selects base 8, else base 10.
Returns the base and the remaining digit characters. -/
def goBaseSplit (cs : List Char) : Nat × List Char :=
  match cs with
  | '0' :: rest =>
    match rest with
    | b :: rest2 =>
      if rest2 ≠ [] ∧ lowerCh b = 'b' then (2, rest2)
      else if rest2 ≠ [] ∧ lowerCh b = 'o' then (8, rest2)
      else if rest2 ≠ [] ∧ lowerCh b = 'x' then (16, rest2)
      else (8, b :: rest2)
    | [] => (8, [])
  | _ => (10, cs)

/-- Largest uint64, the maxVal of ParseUint at bit size 64. -/
def maxUint64 : Nat := 2 ^ 64 - 1

/-- Digit accumulation loop of strconv.ParseUint (base0 = true: the base
argument was 0, so underscores are tolerated here and checked afterwards).
Returns the accumulated value, an error if any, and whether an underscore
was seen. -/
def goDigitsLoop (base : Nat) : List Char → Nat → Bool → Nat × Option ParseErr × Bool
  | [], n, saw => (n, none, saw)
  | c :: rest, n, saw =>
    if c = '_' then goDigitsLoop base rest n true
    else
      match goDigitVal c with
      | none => (0, some .syntaxE, saw)
      | some d =>
        if d ≥ base then (0, some .syntaxE, saw)
        else if n ≥ maxUint64 / base + 1 then (maxUint64, some .rangeE, saw)
        else if n * base + d > maxUint64 then (maxUint64, some .rangeE, saw)
        else goDigitsLoop base rest (n * base + d) saw

/-- Trailing part of strconv's underscoreOK: `saw` is the class of the
previous character ('0' digit, '_' underscore, '^' start, '!' other). -/
def underscoreLoop (hex : Bool) : List Char → Char → Bool
  | [], saw => saw ≠ '_'
  | c :: rest, saw =>
    if ('0' ≤ c ∧ c ≤ '9') ∨ (hex ∧ 'a' ≤ lowerCh c ∧ lowerCh c ≤ 'f') then
      underscoreLoop hex rest '0'
    else if c = '_' then
      if saw = '0' then underscoreLoop hex rest '_' else false
    else if saw = '_' then false
    else underscoreLoop hex rest '!'

/-- Model of strconv's underscoreOK: underscores may only separate digits
(or follow a base prefix). -/
def underscoreOK (cs : List Char) : Bool :=
  let cs1 := match cs with
    | c :: rest => if c = '-' ∨ c = '+' then rest else cs
    | [] => cs
  match cs1 with
  | '0' :: b :: rest =>
    if lowerCh b = 'b' ∨ lowerCh b = 'o' ∨ lowerCh b = 'x' then
      underscoreLoop (lowerCh b = 'x') rest '0'
    else underscoreLoop false cs1 '^'
  | _ => underscoreLoop false cs1 '^'

/-- Model of strconv.ParseUint(s, 0, 64), returning the Go pair
(value, error): on range error Go returns maxUint64 together with the
error, which ParseInt then consumes. -/
def goParseUintRaw (s : String) : Nat × Option ParseErr :=
  let cs := s.data
  if cs = [] then (0, some .syntaxE)
  else
    let bd := goBaseSplit cs
    let r := goDigitsLoop bd.1 bd.2 0 false
    match r.2.1 with
    | some e => (if e = .rangeE then maxUint64 else 0, some e)
    | none => if r.2.2 ∧ ¬ underscoreOK cs then (0, some .syntaxE) else (r.1, none)

/-- ParseUint as the reader consumes it: only success or failure matters
to the caller, which panics on any error. -/
def goParseUint (s : String) : Except ParseErr Nat :=
  match goParseUintRaw s with
  | (_, some e) => .error e
  | (n, none) => .ok n

/-- Model of strconv.ParseInt(s, 0, 64): optional sign, then ParseUint on
the rest; a range error from ParseUint flows into the signed cutoff
checks (Go continues with maxUint64 in that case). -/
def goParseInt (s : String) : Except ParseErr Int :=
  match s.data with
  | [] => .error .syntaxE
  | c :: rest =>
    let neg := c = '-'
    let digits := if c = '+' ∨ c = '-' then rest else s.data
    let r := goParseUintRaw (String.mk digits)
    match r.2 with
    | some .syntaxE => .error .syntaxE
    | _ =>
      if ¬ neg ∧ r.1 ≥ 2 ^ 63 then .error .rangeE
      else if neg ∧ r.1 > 2 ^ 63 then .error .rangeE
      else .ok (if neg then -(r.1 : Int) else (r.1 : Int))

/-- Coarse model of strconv.ParseFloat(s, 64) syntax acceptance (external
stdlib; no claim exercises float cells): optional sign, then inf / nan
special forms or decimal text with optional fraction and exponent.  The
hex-float and digit-separator forms Go also accepts are not modelled. -/
def goParseFloatOk (s : String) : Bool :=
  let cs := match s.data with
    | c :: rest => if c = '+' ∨ c = '-' then rest else s.data
    | [] => s.data
  let low := cs.map lowerCh
  if low = "inf".data ∨ low = "infinity".data ∨ low = "nan".data then true
  else
    let isDig := fun c => decide ('0' ≤ c ∧ c ≤ '9')
    let mant := low.takeWhile (fun c => c ≠ 'e')
    let rest := low.dropWhile (fun c => c ≠ 'e')
    let intPart := mant.takeWhile (fun c => c ≠ '.')
    let fracTail := mant.dropWhile (fun c => c ≠ '.')
    let mantOk :=
      (intPart.all isDig && fracTail.all (fun c => c = '.' || isDig c)) &&
      (decide (intPart ≠ []) || decide (fracTail.length ≥ 2)) &&
      decide (fracTail.count '.' ≤ 1)
    match rest with
    | [] => mantOk
    | _ :: expRest =>
      let expDigits := match expRest with
        | c :: r2 => if c = '+' ∨ c = '-' then r2 else expRest
        | [] => expRest
      mantOk && decide (expDigits ≠ []) && expDigits.all isDig

/-- Fuel-indexed splitter: scans left to right for non-overlapping
occurrences of the separator, as strings.Split does.  Each step consumes at
least one character, so fuel = length of the input always suffices; the
fuel-0 fallback (close the current token with the unscanned remainder) is
never reached from `goSplit`. -/
def goSplitAux (sep : List Char) : Nat → List Char → List Char → List String
  | 0, cs, acc => [String.mk (acc.reverse ++ cs)]
  | _ + 1, [], acc => [String.mk acc.reverse]
  | fuel + 1, c :: cs, acc =>
    if sep.isPrefixOf (c :: cs) then
      String.mk acc.reverse :: goSplitAux sep fuel (List.drop (sep.length - 1) cs) []
    else goSplitAux sep fuel cs (c :: acc)

/-- Model of strings.Split(s, sep): with an empty separator the string
explodes into single characters, otherwise it is cut at each
non-overlapping occurrence of sep ("" yields [""], "a,,b" yields
["a", "", "b"]). -/
def goSplit (s sep : String) : List String :=
  if sep.data = [] then s.data.map (fun c => String.mk [c])
  else goSplitAux sep.data s.data.length s.data []

/-- Pattern models a compiled *regexp.Regexp through the one operation the
reader performs on it: FindStringSubmatch, returning none for no match and
otherwise the full match followed by the capture groups. -/
def Pattern : Type := String → Option (List String)

/-- UnmarshalF models the custom decoder type `func(reflect.Value, string)
error`: it receives the (settable) record and the raw cell text and
returns the possibly mutated record together with an optional error
message. -/
def UnmarshalF : Type := FieldsV → String → FieldsV × Option String

/-- PanicVal enumerates the panics that can occur during row decoding:
the deliberate gserrors.Panicf aborts of readBuiltinType and the reflect
runtime faults the decoder can trigger. -/
inductive PanicVal where
  | isNilOn : Kind → PanicVal
  | elemOfInvalidType : GoType → PanicVal
  | setMismatch : GoType → GoType → PanicVal
  | headerIndexOOR : Nat → Nat → PanicVal
  | convInt : String → Int → String → ParseErr → PanicVal
  | convUint : String → Int → String → ParseErr → PanicVal
  | convFloat : String → Int → String → PanicVal
  | missingPattern : String → Int → PanicVal
  | decomposeFail : String → Int → String → PanicVal
  | fieldOfNonStruct : GoType → PanicVal
  | fieldIndexOOR : Nat → PanicVal
  | appendMismatch : GoType → GoType → PanicVal

/-- GoErr enumerates the error values RowReader.Read can return:
ErrInvalidUnmarshal carrying reflect.TypeOf(val) (none for a nil
argument), the recover-produced "catch panic" error, and the wrapped
custom-decoder error "can't conv cell[col:id] 'text'". -/
inductive GoErr where
  | invalidUnmarshal : Option GoType → GoErr
  | catchPanic : PanicVal → GoErr
  | convCustom : String → Int → String → String → GoErr

/-- RowReader mirrors the Go struct: sheet name, shared lookup tables, the
split characters, the header row and data row (as their cell values), and
the row id.  The mixed-in logger is not modelled (logging is the only
operation performed on it). -/
structure RowReader where
  Sheet : String
  nameMapping : List (String × String)
  unmarshalers : Option (List (String × UnmarshalF))
  pattern : List (String × Pattern)
  Split : String
  header : List String
  row : List String
  id : Int

/-- Association-list lookup, modelling Go map indexing. -/
def lookupA {α : Type} : List (String × α) → String → Option α
  | [], _ => none
  | (k, v) :: rest, key => if k = key then some v else lookupA rest key

/-- Capture-group loop when the sub-record type is not a struct: the first
non-empty group hits reflect's "Field of non-struct type" fault (Go
evaluates subType.Field(i) while building the derived column key); an
all-empty or empty group list performs no field access. -/
def fillGroupsNonStruct (t : GoType) : List String → Except PanicVal Unit
  | [] => .ok ()
  | g :: rest =>
    if g = "" then fillGroupsNonStruct t rest
    else .error (.fieldOfNonStruct t)

/-- Capture-group loop for a struct sub-record (the inner loop of the
slice case of readBuiltinType): empty groups are skipped, otherwise the
i-th struct field (by position) is located — panicking with the reflect
"Field index out of range" fault when the pattern has more groups than the
sub-record has fields — and converted by `conv` (the recursive
readBuiltinType call) under the derived column key "colname.FieldName". -/
def fillGroupsH
    (conv : String → String → GoType → GoValue → Except PanicVal (Bool × GoValue))
    (colname : String) (sfts : List (String × GoType)) :
    List String → Nat → FieldsV → Except PanicVal FieldsV
  | [], _, fs => .ok fs
  | g :: rest, i, fs =>
    if g = "" then fillGroupsH conv colname sfts rest (i + 1) fs
    else
      match sfts.get? i with
      | none => .error (.fieldIndexOOR i)
      | some (fname, ftype) =>
        let name := colname ++ "." ++ fname
        match fs.get? i with
        | none => .error (.fieldIndexOOR i)
        | some (n, t, v) =>
          match conv name g ftype v with
          | .error p => .error p
          | .ok res =>
            fillGroupsH conv colname sfts rest (i + 1) (fs.set i (n, t, res.2))

/-- Sub-token loop of the slice case of readBuiltinType: skip empty
non-matching tokens, panic on non-empty non-matching ones, and for each
match build a fresh sub-record, fill its fields from the capture groups
(via `conv`, the recursive readBuiltinType call), and append the pointer
to it to the slice (reflect.Append panics unless the element type is
exactly that pointer type). -/
def decomposeH
    (conv : String → String → GoType → GoValue → Except PanicVal (Bool × GoValue))
    (r : RowReader) (colname val : String) (pat : Pattern)
    (elemT subT : GoType) : List String → Except PanicVal (List GoValue)
  | [] => .ok []
  | sub :: rest =>
    match pat sub with
    | none =>
      if sub ≠ "" then .error (.decomposeFail colname r.id val)
      else decomposeH conv r colname val pat elemT subT rest
    | some matched =>
      match subT with
      | .structT sfts =>
        match fillGroupsH conv colname sfts (matched.drop 1) 0 (zeroFields sfts) with
        | .error p => .error p
        | .ok subFields =>
          if GoType.beq (.ptr (.structT sfts)) elemT then
            match decomposeH conv r colname val pat elemT (.structT sfts) rest with
            | .error p => .error p
            | .ok elems => .ok (.ptrV (.structV subFields) :: elems)
          else .error (.appendMismatch (.ptr (.structT sfts)) elemT)
      | t =>
        match fillGroupsNonStruct t (matched.drop 1) with
        | .error p => .error p
        | .ok _ =>
          if GoType.beq (.ptr t) elemT then
            match decomposeH conv r colname val pat elemT t rest with
            | .error p => .error p
            | .ok elems => .ok (.ptrV (zeroValue t) :: elems)
          else .error (.appendMismatch (.ptr t) elemT)

/-- Model of the body of RowReader.readBuiltinType (src/xlsx/reader.go
lines 130-223), with the recursive occurrence (converting a sub-record's
fields) abstracted as `convNext`: dispatch on the field's kind, parse
scalars (panicking on failure), assign strings and bools, decompose
slices via the registered pattern, ignore arrays, and report any other
kind as unhandled (false).  Returns the handled flag and the new field
value. -/
def readBuiltinTypeStep
    (convNext : String → String → GoType → GoValue → Except PanicVal (Bool × GoValue))
    (r : RowReader) (colname val : String) (ft : GoType) (fv : GoValue) :
    Except PanicVal (Bool × GoValue) :=
  match ft with
  | .bool => .ok (true, .boolV (val == "true" || val == "1"))
  | .int =>
    match goParseInt val with
    | .error e => .error (.convInt colname r.id val e)
    | .ok v => .ok (true, .intV v)
  | .uint =>
    match goParseUint val with
    | .error e => .error (.convUint colname r.id val e)
    | .ok v => .ok (true, .uintV v)
  | .float =>
    if goParseFloatOk val then .ok (true, .floatV val)
    else .error (.convFloat colname r.id val)
  | .string => .ok (true, .stringV val)
  | .array _ => .ok (true, fv)
  | .slice elemT =>
    match lookupA r.pattern colname with
    | none => .error (.missingPattern colname r.id)
    | some pat =>
      let subT := match elemT with | .ptr s => s | t => t
      match decomposeH convNext r colname val pat elemT subT
          (goSplit val r.Split) with
      | .error p => .error p
      | .ok elems => .ok (true, .sliceV elemT elems)
  | _ => .ok (false, fv)

/-- Fuel-indexed tying of the recursive knot of readBuiltinType: each
slice level converts its sub-record fields with one unit of fuel less.
The recursion of the Go function descends along strictly smaller types
(the slice's element type, its pointee, then a field type of that
struct), so it is bounded by the size of the field's type, which the
wrapper `readBuiltinType` passes as fuel; since every type has size at
least 1 while each level's field type has strictly smaller size than the
slice type one level up, the fuel-0 fallback (leaving any sub-record
field unhandled and unchanged) is never reached from the wrapper. -/
def readBuiltinTypeF : Nat → RowReader → String → String → GoType →
    GoValue → Except PanicVal (Bool × GoValue)
  | 0 => fun r colname val ft fv =>
      readBuiltinTypeStep (fun _ _ _ v => .ok (false, v)) r colname val ft fv
  | fuel + 1 => fun r colname val ft fv =>
      readBuiltinTypeStep (readBuiltinTypeF fuel r) r colname val ft fv

/-- RowReader.readBuiltinType: the fuel is the size of the field's type,
a strict bound on the nesting depth of sub-record types (see
readBuiltinTypeF). -/
def readBuiltinType (r : RowReader) (colname val : String) (ft : GoType)
    (fv : GoValue) : Except PanicVal (Bool × GoValue) :=
  readBuiltinTypeF (GoType.sizeT ft) r colname val ft fv

/-- Column resolution (src/xlsx/reader.go lines 97-103): the sheet-qualified
key "Sheet.colname" is looked up in the rename table; a hit replaces the
column name and requalifies the key.  Returns (colname, key). -/
def resolveCol (r : RowReader) (raw : String) : String × String :=
  let key := r.Sheet ++ "." ++ raw
  match lookupA r.nameMapping key with
  | some name => (name, r.Sheet ++ "." ++ name)
  | none => (raw, key)

/-- Custom-decoder lookup (lines 105-112): the unmarshalers map is consulted
only when non-nil. -/
def lookupUnm (r : RowReader) (key : String) : Option UnmarshalF :=
  match r.unmarshalers with
  | some us => lookupA us key
  | none => none

/-- Replace the value of the named field, keeping order and types: the
state-passing image of assigning through the reflect.Value of the field. -/
def setFieldV : FieldsV → String → GoValue → FieldsV
  | [], _, _ => []
  | (n, t, v) :: rest, name, v2 =>
    if n = name then (n, t, v2) :: rest else (n, t, v) :: setFieldV rest name v2

/-- Outcome of processing one cell: continue with the (possibly updated)
record, abort returning an error, or abort by panicking. -/
inductive CellOutcome where
  | proceed : FieldsV → CellOutcome
  | abortErr : FieldsV → GoErr → CellOutcome
  | abortPanic : FieldsV → PanicVal → CellOutcome

/-- Body of one iteration of the cell loop of RowReader.Read (lines
96-124): fetch the header cell at the same position (an out-of-range
position panics), resolve the column, try the custom decoder, then locate
the record field by name (missing fields are skipped with a warning) and
run the built-in conversion. -/
def decodeCell (r : RowReader) (i : Nat) (cellVal : String) (st : FieldsV) :
    CellOutcome :=
  match r.header[i]? with
  | none => .abortPanic st (.headerIndexOOR i r.header.length)
  | some raw =>
    let ck := resolveCol r raw
    match lookupUnm r ck.2 with
    | some f =>
      match f st cellVal with
      | (st2, some msg) => .abortErr st2 (.convCustom ck.1 r.id cellVal msg)
      | (st2, none) => .proceed st2
    | none =>
      match lookupA st ck.1 with
      | none => .proceed st
      | some (ft, fv) =>
        match readBuiltinType r ck.2 cellVal ft fv with
        | .error p => .abortPanic st p
        | .ok res => .proceed (setFieldV st ck.1 res.2)

/-- Status of a row decode before the deferred recover runs. -/
inductive ReadStatus where
  | ok : ReadStatus
  | fail : GoErr → ReadStatus
  | panicked : PanicVal → ReadStatus

/-- The cell loop of RowReader.Read: process the row's cells left to right
starting at position i, stopping at the first abort.  The record state at
the stop is returned alongside the status (mutation is never rolled back). -/
def processCellsFrom (r : RowReader) : Nat → List String → FieldsV →
    FieldsV × ReadStatus
  | _, [], st => (st, .ok)
  | i, c :: rest, st =>
    match decodeCell r i c st with
    | .proceed st2 => processCellsFrom r (i + 1) rest st2
    | .abortErr st2 e => (st2, .fail e)
    | .abortPanic st2 p => (st2, .panicked p)

/-- Model of reflect.Value.IsNil: defined for pointer, slice and interface
values (chan/func/map do not occur in the model); any other kind panics
with reflect's "IsNil on ... Value" fault. -/
def goIsNil : GoValue → Except PanicVal Bool
  | .nilPtr _ => .ok true
  | .ptrV _ => .ok false
  | .nilSliceV _ => .ok true
  | .sliceV _ _ => .ok false
  | .nilIface => .ok true
  | v => .error (.isNilOn (kindOfV v))

/-- Model of reflect.Type.Elem: element type of pointer, slice and array
types; panics with "Elem of invalid type" on the rest. -/
def goTypeElem : GoType → Except PanicVal GoType
  | .ptr t => .ok t
  | .slice t => .ok t
  | .array t => .ok t
  | t => .error (.elemOfInvalidType t)

/-- Body of RowReader.Read before the deferred recover (lines 79-127):
validate and possibly initialize the target, then run the cell loop.
The returned GoValue is the final state of the argument (mutations made
through the handle are visible to the caller even on abort).

Validation mirrors the source exactly: a non-pointer or nil-pointer
argument is an ErrInvalidUnmarshal; otherwise rv.Elem().IsNil() is
evaluated — which, per reflect, panics unless the pointee's kind is
nilable (so a non-nil pointer to a struct panics here).  If the pointee is
nil, rv becomes the pointee cell and a freshly allocated value is stored
into it (reflect.Set panics unless the types coincide — only a nil
pointer pointee survives this).  After the branch, rv.Elem().Kind() must
be Struct; a value that passed IsNil without panicking is of nilable kind,
never Struct, so in the non-nil branch this check always fails and returns
ErrInvalidUnmarshal. -/
def RowReader.ReadNoRecover (r : RowReader) (val : GoValue) :
    GoValue × ReadStatus :=
  match val with
  | .ptrV inner =>
    match goIsNil inner with
    | .error p => (val, .panicked p)
    | .ok true =>
      match goTypeElem (typeOf inner) with
      | .error p => (val, .panicked p)
      | .ok elemT =>
        if GoType.beq (.ptr elemT) (typeOf inner) then
          match elemT with
          | .structT fts =>
            match processCellsFrom r 0 r.row (zeroFields fts) with
            | (st, status) => (.ptrV (.ptrV (.structV st)), status)
          | t => (.ptrV (.ptrV (zeroValue t)),
                  .fail (.invalidUnmarshal (some (typeOf val))))
        else (val, .panicked (.setMismatch (.ptr elemT) (typeOf inner)))
    | .ok false => (val, .fail (.invalidUnmarshal (some (typeOf val))))
  | .nilIface => (.nilIface, .fail (.invalidUnmarshal none))
  | v => (v, .fail (.invalidUnmarshal (some (typeOf v))))

/-- Model of RowReader.Read (lines 71-128): the deferred recover turns any
panic raised by the body into the returned error "catch panic :...";
otherwise the body's error (or nil) is returned unchanged. -/
def RowReader.Read (r : RowReader) (val : GoValue) : GoValue × Option GoErr :=
  match r.ReadNoRecover val with
  | (st, .ok) => (st, none)
  | (st, .fail e) => (st, some e)
  | (st, .panicked p) => (st, some (.catchPanic p))

/-- A sheet of the external xlsx file: its name and its rows, each row the
list of its cells' string values. -/
structure XSheet where
  Name : String
  Rows : List (List String)

/-- The external xlsx file: its sheets in order. -/
structure XFile where
  Sheets : List XSheet

/-- Reader mirrors the Go xlsx.Reader: the opened file and the shared
pattern / unmarshaler / rename tables. -/
structure Reader where
  file : XFile
  Pattern : List (String × Pattern)
  Unmarshalers : Option (List (String × UnmarshalF))
  NameMapping : List (String × String)

/-- Model of Reader.newRowReader (lines 58-69).  The Go struct literal
copies the shared tables, sheet name, header and row, and sets Split to
",", but omits the id field, which therefore stays at its zero value: the
id parameter is accepted and dropped. -/
def Reader.newRowReader (reader : Reader) (name : String)
    (header row : List String) (id : Int) : RowReader :=
  { nameMapping := reader.NameMapping
    unmarshalers := reader.Unmarshalers
    pattern := reader.Pattern
    Sheet := name
    header := header
    row := row
    Split := ","
    id := 0 }

/-- Model of Reader.Read (lines 249-278): find the sheet by name (nil when
absent or when it has fewer than 2 rows), take the first row as header,
and build one RowReader per remaining row, passing the zero-based data-row
index as id. -/
def Reader.Read (reader : Reader) (sheetName : String) : List RowReader :=
  match reader.file.Sheets.find? (fun s => s.Name == sheetName) with
  | none => []
  | some sheet =>
    if sheet.Rows.length < 2 then []
    else
      match sheet.Rows with
      | [] => []
      | header :: dataRows =>
        (dataRows.enum).map
          (fun p => reader.newRowReader sheetName header p.2 (Int.ofNat p.1))

/-- Word character of RE2's \w: [0-9A-Za-z_]. -/
def isWordCh (c : Char) : Bool :=
  decide ('0' ≤ c ∧ c ≤ '9') || decide ('a' ≤ c ∧ c ≤ 'z') ||
  decide ('A' ≤ c ∧ c ≤ 'Z') || c == '_'

/-- Decimal digit character of RE2's \d. -/
def isDigitCh (c : Char) : Bool := decide ('0' ≤ c ∧ c ≤ '9')

/-- FindStringSubmatch of the compiled pattern ^(\d+):(\w+)$ (the pattern
the claims register): since neither \d nor \w matches ':', the string
matches exactly when it is a non-empty digit run, one ':', and a non-empty
word-character run; the result is then the full match and both groups. -/
def digitsColonWord : Pattern := fun s =>
  match goSplit s (":") with
  | [d, w] =>
    if d ≠ "" ∧ d.data.all isDigitCh ∧ w ≠ "" ∧ w.data.all isWordCh then
      some [s, d, w]
    else none
  | _ => none

/-- Sub-record type used by the decomposition claims:
struct { Field1 int; Field2 string }. -/
def subRecT : GoType := .structT [("Field1", .int), ("Field2", .string)]

/-- List field type with pointer elements: []*subRecT. -/
def listPtrT : GoType := .slice (.ptr subRecT)

/-- List field type with non-pointer struct elements: []subRecT. -/
def listValT : GoType := .slice subRecT

/-- Row reader fixture for the decomposition claims: sheet "S", one header
column "L", the pattern ^(\d+):(\w+)$ registered under key "S.L", default
split ",", no renames and no custom decoders. -/
def listReader (row : List String) : RowReader :=
  { Sheet := "S", nameMapping := [], unmarshalers := none,
    pattern := [("S.L", digitsColonWord)], Split := ",",
    header := ["L"], row := row, id := 0 }

/-- Row reader fixture with two columns "A" (int) and "B" (list) and an
empty pattern table, for the missing-pattern claim. -/
def noPatternReader (row : List String) : RowReader :=
  { Sheet := "S", nameMapping := [], unmarshalers := none,
    pattern := [], Split := ",",
    header := ["A", "B"], row := row, id := 0 }

/-- Custom decoder fixture: stores the raw cell text into field "A". -/
def storeIntoA : UnmarshalF := fun st s => (setFieldV st ("A") (.stringV s), none)

/-- Custom decoder fixture: mutates field "A" and then reports an error. -/
def mutateThenFail : UnmarshalF := fun st s =>
  (setFieldV st ("A") (.stringV s), some ("boom"))

/-- Row reader fixture with a custom decoder registered for key "S.A",
where "A" is also an int record field, for the precedence claim. -/
def unmReader (f : UnmarshalF) (row : List String) : RowReader :=
  { Sheet := "S", nameMapping := [], unmarshalers := some [("S.A", f)],
    pattern := [("S.A", digitsColonWord)], Split := ",",
    header := ["A"], row := row, id := 0 }

/-- Row reader fixture with int columns "A" and "B", for the
no-rollback claim. -/
def intsReader (row : List String) : RowReader :=
  { Sheet := "S", nameMapping := [], unmarshalers := none,
    pattern := [], Split := ",",
    header := ["A", "B"], row := row, id := 0 }

/-- Row reader fixture with a single int column "N". -/
def intReader (row : List String) : RowReader :=
  { Sheet := "S", nameMapping := [], unmarshalers := none,
    pattern := [], Split := ",",
    header := ["N"], row := row, id := 0 }

/-- Row reader fixture whose header has one column "A" (int), used with
longer data rows for the trailing-cells claim. -/
def shortHeaderReader (row : List String) : RowReader :=
  { Sheet := "S", nameMapping := [], unmarshalers := none,
    pattern := [], Split := ",",
    header := ["A"], row := row, id := 0 }

/-- File-level fixture: one sheet "S" with a header row and two data rows. -/
def twoRowReader : Reader :=
  { file := { Sheets := [{ Name := "S", Rows := [["H"], ["a"], ["b"]] }] },
    Pattern := [], Unmarshalers := none, NameMapping := [] }
mutual

/-- Every Go type is beq-equal to itself. -/
theorem GoType.beq_refl : (t : GoType) → GoType.beq t t = true
  | .bool => rfl
  | .int => rfl
  | .uint => rfl
  | .float => rfl
  | .string => rfl
  | .iface => rfl
  | .ptr a => by rw [GoType.beq]; exact GoType.beq_refl a
  | .slice a => by rw [GoType.beq]; exact GoType.beq_refl a
  | .array a => by rw [GoType.beq]; exact GoType.beq_refl a
  | .structT fs => by rw [GoType.beq]; exact GoType.beqFields_refl fs

/-- Every field type list is beq-equal to itself. -/
theorem GoType.beqFields_refl : (fs : List (String × GoType)) →
    GoType.beqFields fs fs = true
  | [] => rfl
  | (n, t) :: fs => by
      rw [GoType.beqFields]
      simp [GoType.beq_refl t, GoType.beqFields_refl fs]

end

/-- Claim C1 (code bug): the claim states that every non-nil pointer to a
struct is a valid decode target that proceeds to the row's cells; on the
code, rv.Elem().IsNil() panics on the struct pointee, so Read instead
returns the recover-produced "catch panic" error for every such target,
with the record untouched. -/
theorem c1_nonnil_struct_pointer_is_rejected (r : RowReader) (fs : FieldsV)
    (n : Int) (t : GoType) :
    RowReader.Read r (.ptrV (.structV fs)) =
      (.ptrV (.structV fs), some (.catchPanic (.isNilOn .structK))) ∧
    RowReader.Read r (.intV n) =
      (.intV n, some (.invalidUnmarshal (some .int))) ∧
    RowReader.Read r (.nilPtr t) =
      (.nilPtr t, some (.invalidUnmarshal (some (.ptr t)))) ∧
    RowReader.Read r .nilIface =
      (.nilIface, some (.invalidUnmarshal none)) := by
  refine ⟨?_, ?_, ?_, ?_⟩ <;>
    simp [RowReader.Read, RowReader.ReadNoRecover, goIsNil, kindOfV, typeOf]

/-- Claim C2 (code bug): the claim states the i-th RowReader carries row
id i; the code's newRowReader drops its id argument (the struct literal
omits the field), so on a sheet with two data rows both readers carry
id 0 (one reader per data row is produced, as the claim also states). -/
theorem c2_row_ids_all_zero :
    (Reader.Read twoRowReader ("S")).map (fun rr => rr.id) = [0, 0] ∧
    (Reader.Read twoRowReader ("S")).length = 2 := by
  constructor <;> rfl

/-- Claim C7: any panic raised by the row-decode body is caught at the
decode boundary and converted into a returned "catch panic" decode error,
so Read returns normally with the body's final state and an error value. -/
theorem c7_panic_caught_at_boundary (r : RowReader) (v st : GoValue)
    (p : PanicVal) (h : RowReader.ReadNoRecover r v = (st, .panicked p)) :
    RowReader.Read r v = (st, some (.catchPanic p)) := by
  simp [RowReader.Read, h]

/-- Witness for C7 at a concrete panicking input. -/
theorem c7_panic_caught_at_boundary_witness :
    RowReader.Read (intReader ["5"]) (.ptrV (.structV [])) =
      (.ptrV (.structV []), some (.catchPanic (.isNilOn .structK))) :=
  c7_panic_caught_at_boundary (intReader ["5"]) (.ptrV (.structV []))
    (.ptrV (.structV [])) (.isNilOn .structK) rfl

/-- Claim C6: integer and unsigned-integer cells are parsed as
base-flexible integer text ("42" and "0x2A" both yield 42); unparsable
text such as "abc", and negative text such as "-1" for an unsigned field,
abort with an error naming the column key, the row id and the raw text,
with the syntax failure as cause; at the row level the decode fails with
that error. -/
theorem c6_integer_conversion (r : RowReader) (col : String) (fv : GoValue) :
    readBuiltinType r col ("42") .int fv = .ok (true, .intV 42) ∧
    readBuiltinType r col ("0x2A") .int fv = .ok (true, .intV 42) ∧
    readBuiltinType r col ("abc") .int fv =
      .error (.convInt col r.id ("abc") .syntaxE) ∧
    readBuiltinType r col ("-1") .uint fv =
      .error (.convUint col r.id ("-1") .syntaxE) ∧
    RowReader.Read (intReader ["abc"]) (.ptrV (.nilPtr (.structT [("N", .int)]))) =
      (.ptrV (.ptrV (.structV [("N", .int, .intV 0)])),
       some (.catchPanic (.convInt ("S.N") 0 ("abc") .syntaxE))) := by
  refine ⟨?_, ?_, ?_, ?_, ?_⟩ <;>
    simp [readBuiltinType, readBuiltinTypeF, readBuiltinTypeStep, GoType.sizeT, GoType.sizeFs,
          RowReader.Read, RowReader.ReadNoRecover, goIsNil,
          goTypeElem, typeOf, GoType.beq, GoType.beqFields, zeroFields, zeroValue,
          processCellsFrom, decodeCell, resolveCol, lookupUnm, lookupA, intReader,
          setFieldV, goParseInt, goParseUint, goParseUintRaw, goBaseSplit,
          goDigitsLoop, goDigitVal, lowerCh, maxUint64, underscoreOK, underscoreLoop]

/-- Claim C3: with pattern ^(\d+):(\w+)$ under the resolved key and split
",", cell "1:a,2:b" decomposes into exactly the two sub-records
{Field1:1, Field2:"a"} then {Field1:2, Field2:"b"} in token order;
"1:a,,2:b" skips the empty middle token and yields the same two
sub-records; "1:a,xyz" is a decomposition failure naming the column, row
id and full raw cell text, which aborts the row decode. -/
theorem c3_decomposition_examples :
    readBuiltinType (listReader ["1:a,2:b"]) ("S.L") ("1:a,2:b") listPtrT
        (.nilSliceV (.ptr subRecT)) =
      .ok (true, .sliceV (.ptr subRecT)
        [.ptrV (.structV [("Field1", .int, .intV 1),
                          ("Field2", .string, .stringV ("a"))]),
         .ptrV (.structV [("Field1", .int, .intV 2),
                          ("Field2", .string, .stringV ("b"))])]) ∧
    readBuiltinType (listReader ["1:a,,2:b"]) ("S.L") ("1:a,,2:b") listPtrT
        (.nilSliceV (.ptr subRecT)) =
      .ok (true, .sliceV (.ptr subRecT)
        [.ptrV (.structV [("Field1", .int, .intV 1),
                          ("Field2", .string, .stringV ("a"))]),
         .ptrV (.structV [("Field1", .int, .intV 2),
                          ("Field2", .string, .stringV ("b"))])]) ∧
    readBuiltinType (listReader ["1:a,xyz"]) ("S.L") ("1:a,xyz") listPtrT
        (.nilSliceV (.ptr subRecT)) =
      .error (.decomposeFail ("S.L") 0 ("1:a,xyz")) ∧
    RowReader.Read (listReader ["1:a,xyz"])
        (.ptrV (.nilPtr (.structT [("L", listPtrT)]))) =
      (.ptrV (.ptrV (.structV [("L", listPtrT, .nilSliceV (.ptr subRecT))])),
       some (.catchPanic (.decomposeFail ("S.L") 0 ("1:a,xyz")))) := by
  refine ⟨?_, ?_, ?_, ?_⟩ <;>
    simp [readBuiltinType, readBuiltinTypeF, readBuiltinTypeStep, GoType.sizeT, GoType.sizeFs,
          decomposeH, fillGroupsH, fillGroupsNonStruct,
          RowReader.Read, RowReader.ReadNoRecover, goIsNil, goTypeElem, typeOf,
          GoType.beq, GoType.beqFields, zeroFields, zeroValue, processCellsFrom,
          decodeCell, resolveCol, lookupUnm, lookupA, listReader, subRecT,
          listPtrT, setFieldV, goSplit, goSplitAux, List.isPrefixOf,
          digitsColonWord, isDigitCh, isWordCh, goParseInt, goParseUint,
          goParseUintRaw, goBaseSplit, goDigitsLoop, goDigitVal, lowerCh,
          maxUint64, underscoreOK, underscoreLoop]

/-- Processing a concatenation of cell lists: if the first part succeeds,
processing continues into the second part with the accumulated record and
shifted positions. -/
theorem processCellsFrom_append (r : RowReader) (xs ys : List String)
    (i : Nat) (st stx : FieldsV)
    (h : processCellsFrom r i xs st = (stx, .ok)) :
    processCellsFrom r i (xs ++ ys) st =
      processCellsFrom r (i + xs.length) ys stx := by
  induction xs generalizing i st with
  | nil =>
    simp [processCellsFrom] at h
    simp [h]
  | cons c rest ih =>
    rcases hdc : decodeCell r i c st with st2 | ⟨st2, e⟩ | ⟨st2, p⟩ <;>
      simp only [processCellsFrom, hdc, List.cons_append, List.append_eq] at h ⊢
    · rw [ih _ _ h]
      congr 1
      simp [List.length_cons]
      omega
    · simp at h
    · simp at h

/-- Claim C8: when the cell loop stops with an error or a panic, the
returned record state is exactly the state accumulated by the successful
prefix, further modified only by the failing cell itself: no rollback of
earlier assignments is performed. -/
theorem c8_no_rollback (r : RowReader) (cells : List String) (i : Nat)
    (st : FieldsV) (res : FieldsV × ReadStatus)
    (hres : processCellsFrom r i cells st = res) (hne : res.2 ≠ .ok) :
    ∃ j c stj, cells[j]? = some c ∧
      processCellsFrom r i (cells.take j) st = (stj, .ok) ∧
      ((∃ e, decodeCell r (i + j) c stj = .abortErr res.1 e ∧ res.2 = .fail e) ∨
       (∃ p, decodeCell r (i + j) c stj = .abortPanic res.1 p ∧
         res.2 = .panicked p)) := by
  induction cells generalizing i st with
  | nil =>
    simp [processCellsFrom] at hres
    rw [← hres] at hne
    simp at hne
  | cons c rest ih =>
    rcases hdc : decodeCell r i c st with st2 | ⟨st2, e⟩ | ⟨st2, p⟩
    · rw [processCellsFrom, hdc] at hres
      obtain ⟨j, c2, stj, h1, h2, h3⟩ := ih (i + 1) st2 hres
      refine ⟨j + 1, c2, stj, by simpa using h1, ?_, ?_⟩
      · simp only [List.take_succ_cons, processCellsFrom, hdc]
        exact h2
      · have hidx : i + (j + 1) = (i + 1) + j := by omega
        rw [hidx]
        exact h3
    · rw [processCellsFrom, hdc] at hres
      refine ⟨0, c, st, by simp, by simp [processCellsFrom], ?_⟩
      rw [← hres]
      exact Or.inl ⟨e, by simpa using hdc, rfl⟩
    · rw [processCellsFrom, hdc] at hres
      refine ⟨0, c, st, by simp, by simp [processCellsFrom], ?_⟩
      rw [← hres]
      exact Or.inr ⟨p, by simpa using hdc, rfl⟩

/-- Claim C10: when the data row has more cells than the header, the cells
covered by the header are processed normally (their assignments stand, the
extra trailing cells influence nothing), and at the first uncovered
position the header lookup is an out-of-range fault, caught at the decode
boundary and returned as a generic "catch panic" decode error. -/
theorem c10_extra_cells_caught (r : RowReader) (fts : List (String × GoType))
    (stH : FieldsV)
    (hlen : r.header.length < r.row.length)
    (hpre : processCellsFrom r 0 (r.row.take r.header.length)
      (zeroFields fts) = (stH, .ok)) :
    RowReader.Read r (.ptrV (.nilPtr (.structT fts))) =
      (.ptrV (.ptrV (.structV stH)),
       some (.catchPanic (.headerIndexOOR r.header.length r.header.length))) := by
  have hrow : r.row = r.row.take r.header.length ++
      (r.row[r.header.length] :: r.row.drop (r.header.length + 1)) := by
    conv_lhs => rw [← List.take_append_drop r.header.length r.row]
    rw [List.drop_eq_getElem_cons hlen]
  have happ := processCellsFrom_append r (r.row.take r.header.length)
    (r.row[r.header.length] :: r.row.drop (r.header.length + 1)) 0
    (zeroFields fts) stH hpre
  have hidx : 0 + (r.row.take r.header.length).length = r.header.length := by
    simp [List.length_take]
    omega
  have hn : r.header[r.header.length]? = none :=
    List.getElem?_eq_none (Nat.le_refl _)
  have hcells : processCellsFrom r 0 r.row (zeroFields fts) =
      (stH, .panicked (.headerIndexOOR r.header.length r.header.length)) := by
    conv_lhs => rw [hrow]
    rw [happ, hidx]
    simp only [processCellsFrom, decodeCell, hn]
  simp [RowReader.Read, RowReader.ReadNoRecover, goIsNil, typeOf, goTypeElem,
        GoType.beq, GoType.beqFields_refl, hcells]

/-- Witness for C10: header ["A"], row ["5", "6"]; the covered cell sets
A to 5, the extra cell position panics and is returned as an error. -/
theorem c10_extra_cells_caught_witness :
    RowReader.Read (shortHeaderReader ["5", "6"])
        (.ptrV (.nilPtr (.structT [("A", .int)]))) =
      (.ptrV (.ptrV (.structV [("A", .int, .intV 5)])),
       some (.catchPanic (.headerIndexOOR 1 1))) :=
  c10_extra_cells_caught (shortHeaderReader ["5", "6"]) [("A", .int)]
    [("A", .int, .intV 5)] (by decide)
    (by simp [processCellsFrom, decodeCell, resolveCol, lookupUnm, lookupA,
          shortHeaderReader, zeroFields, zeroValue, setFieldV, readBuiltinType, readBuiltinTypeF, readBuiltinTypeStep, GoType.sizeT, GoType.sizeFs,
          goParseInt, goParseUintRaw, goBaseSplit, goDigitsLoop, goDigitVal,
          lowerCh, maxUint64, underscoreOK, underscoreLoop])

/-- Claim C4: a list-typed field whose resolved column key has no
registered pattern makes the row decode abort with the missing-pattern
error (naming the key and the row id), caught at the boundary; the
returned record state is exactly the pre-cell state stj, so fields
assigned by earlier cells remain set and the list field itself keeps its
(zero) value. -/
theorem c4_missing_pattern_aborts (r : RowReader) (fts : List (String × GoType))
    (i : Nat) (cell raw colname key : String) (stj : FieldsV)
    (elemT : GoType) (curV : GoValue)
    (hpre : processCellsFrom r 0 (r.row.take i) (zeroFields fts) = (stj, .ok))
    (hcell : r.row[i]? = some cell)
    (hraw : r.header[i]? = some raw)
    (hres : resolveCol r raw = (colname, key))
    (hunm : lookupUnm r key = none)
    (hfld : lookupA stj colname = some (.slice elemT, curV))
    (hpat : lookupA r.pattern key = none) :
    RowReader.Read r (.ptrV (.nilPtr (.structT fts))) =
      (.ptrV (.ptrV (.structV stj)),
       some (.catchPanic (.missingPattern key r.id))) := by
  have hlt : i < r.row.length := by
    rcases List.getElem?_eq_some.mp hcell with ⟨h, _⟩
    exact h
  have hgi : r.row[i] = cell := by
    rcases List.getElem?_eq_some.mp hcell with ⟨h, hv⟩
    exact hv
  have hrow : r.row = r.row.take i ++ (cell :: r.row.drop (i + 1)) := by
    conv_lhs => rw [← List.take_append_drop i r.row]
    rw [List.drop_eq_getElem_cons hlt, hgi]
  have happ := processCellsFrom_append r (r.row.take i)
    (cell :: r.row.drop (i + 1)) 0 (zeroFields fts) stj hpre
  have hidx : 0 + (r.row.take i).length = i := by
    simp [List.length_take]
    omega
  have hcells : processCellsFrom r 0 r.row (zeroFields fts) =
      (stj, .panicked (.missingPattern key r.id)) := by
    conv_lhs => rw [hrow]
    rw [happ, hidx]
    simp only [processCellsFrom, decodeCell, hraw, hres, hunm, hfld,
               readBuiltinType, readBuiltinTypeF, readBuiltinTypeStep, hpat]
  simp [RowReader.Read, RowReader.ReadNoRecover, goIsNil, typeOf, goTypeElem,
        GoType.beq, GoType.beqFields_refl, hcells]

/-- Witness for C4: columns A (int, cell "7") then B (list, cell "1:a")
with an empty pattern table; A keeps its assigned 7, B stays at its zero
value, and the missing-pattern panic for key "S.B" is returned as the
decode error. -/
theorem c4_missing_pattern_aborts_witness :
    RowReader.Read (noPatternReader ["7", "1:a"])
        (.ptrV (.nilPtr (.structT [("A", .int), ("B", listPtrT)]))) =
      (.ptrV (.ptrV (.structV [("A", .int, .intV 7),
        ("B", listPtrT, .nilSliceV (.ptr subRecT))])),
       some (.catchPanic (.missingPattern ("S.B") 0))) :=
  c4_missing_pattern_aborts (noPatternReader ["7", "1:a"])
    [("A", .int), ("B", listPtrT)] 1 ("1:a") ("B") ("B") ("S.B")
    [("A", .int, .intV 7), ("B", listPtrT, .nilSliceV (.ptr subRecT))]
    (.ptr subRecT) (.nilSliceV (.ptr subRecT))
    (by simp [processCellsFrom, decodeCell, resolveCol, lookupUnm, lookupA,
          noPatternReader, zeroFields, zeroValue, setFieldV, readBuiltinType, readBuiltinTypeF, readBuiltinTypeStep, GoType.sizeT, GoType.sizeFs,
          goParseInt, goParseUintRaw, goBaseSplit, goDigitsLoop, goDigitVal,
          lowerCh, maxUint64, underscoreOK, underscoreLoop, listPtrT, subRecT])
    rfl rfl rfl rfl (by simp [lookupA, listPtrT]) rfl

/-- Claim C5: when the resolved key has a registered custom decoder, the
cell is decoded by that function alone: an error from it aborts the row
wrapped with column, row and cell-text context, success continues with
whatever record state the function produced, and the outcome is identical
for any contents of the pattern table — the built-in conversion is never
attempted, even though the key may also resolve to a record field. -/
theorem c5_custom_decoder_precedence (r : RowReader) (i : Nat)
    (cellVal raw colname key : String) (st : FieldsV) (f : UnmarshalF)
    (hraw : r.header[i]? = some raw)
    (hres : resolveCol r raw = (colname, key))
    (hunm : lookupUnm r key = some f) :
    (∀ st2 msg, f st cellVal = (st2, some msg) →
      decodeCell r i cellVal st =
        .abortErr st2 (.convCustom colname r.id cellVal msg)) ∧
    (∀ st2, f st cellVal = (st2, none) →
      decodeCell r i cellVal st = .proceed st2) ∧
    (∀ pats, decodeCell { r with pattern := pats } i cellVal st =
      decodeCell r i cellVal st) := by
  refine ⟨?_, ?_, ?_⟩
  · intro st2 msg hf
    simp [decodeCell, hraw, hres, hunm, hf]
  · intro st2 hf
    simp [decodeCell, hraw, hres, hunm, hf]
  · intro pats
    have hraw2 : ({ r with pattern := pats } : RowReader).header[i]? =
        some raw := hraw
    have hres2 : resolveCol { r with pattern := pats } raw = (colname, key) := by
      simpa [resolveCol] using hres
    have hunm2 : lookupUnm { r with pattern := pats } key = some f := hunm
    rcases hf : f st cellVal with ⟨st2, msg⟩
    rcases msg with _ | m <;>
      simp [decodeCell, hraw, hres, hunm, hraw2, hres2, hunm2, hf]

/-- Witness for C5: the custom decoder for key "S.A" stores the raw text
into field A and succeeds, so the cell proceeds with that state. -/
theorem c5_custom_decoder_precedence_witness :
    decodeCell (unmReader storeIntoA ["42"]) 0 ("42")
        [("A", .string, .stringV (""))] =
      .proceed [("A", .string, .stringV ("42"))] :=
  (c5_custom_decoder_precedence (unmReader storeIntoA ["42"]) 0 ("42") ("A")
      ("A") ("S.A") [("A", .string, .stringV (""))] storeIntoA rfl rfl
      rfl).2.1 [("A", .string, .stringV ("42"))] rfl

/-- Witness for C8: cell "5" assigns A = 5, cell "x" fails integer
conversion; the returned state keeps A = 5 and B at zero. -/
theorem c8_no_rollback_witness :
    ∃ j c stj, (["5", "x"] : List String)[j]? = some c ∧
      processCellsFrom (intsReader ["5", "x"]) 0
        ((["5", "x"] : List String).take j)
        (zeroFields [("A", .int), ("B", .int)]) = (stj, .ok) ∧
      ((∃ e, decodeCell (intsReader ["5", "x"]) (0 + j) c stj =
          CellOutcome.abortErr
            [("A", GoType.int, GoValue.intV 5), ("B", GoType.int, GoValue.intV 0)] e ∧
          ReadStatus.panicked (PanicVal.convInt ("S.B") 0 ("x") ParseErr.syntaxE) =
            ReadStatus.fail e) ∨
       (∃ p, decodeCell (intsReader ["5", "x"]) (0 + j) c stj =
          CellOutcome.abortPanic
            [("A", GoType.int, GoValue.intV 5), ("B", GoType.int, GoValue.intV 0)] p ∧
          ReadStatus.panicked (PanicVal.convInt ("S.B") 0 ("x") ParseErr.syntaxE) =
            ReadStatus.panicked p)) :=
  c8_no_rollback (intsReader ["5", "x"]) ["5", "x"] 0
    (zeroFields [("A", .int), ("B", .int)])
    ([("A", .int, .intV 5), ("B", .int, .intV 0)],
      .panicked (.convInt ("S.B") 0 ("x") .syntaxE))
    (by simp [processCellsFrom, decodeCell, resolveCol, lookupUnm, lookupA,
          intsReader, zeroFields, zeroValue, setFieldV, readBuiltinType, readBuiltinTypeF, readBuiltinTypeStep, GoType.sizeT, GoType.sizeFs,
          goParseInt, goParseUintRaw, goBaseSplit, goDigitsLoop, goDigitVal,
          lowerCh, maxUint64, underscoreOK, underscoreLoop])
    (by simp)

/-- Empty non-matching tokens at the front of the token list are skipped
by the decomposition loop. -/
theorem decomposeH_skip_empty
    (conv : String → String → GoType → GoValue → Except PanicVal (Bool × GoValue))
    (r : RowReader) (colname val : String)
    (pat : Pattern) (elemT subT : GoType) (pre toks : List String)
    (h : ∀ u ∈ pre, pat u = none ∧ u = "") :
    decomposeH conv r colname val pat elemT subT (pre ++ toks) =
      decomposeH conv r colname val pat elemT subT toks := by
  induction pre with
  | nil => rfl
  | cons u pre ih =>
    obtain ⟨hpu, hue⟩ := h u (by simp)
    subst hue
    rw [List.cons_append]
    rw [decomposeH]
    simp [hpu, ih (fun v hv => h v (by simp [hv]))]

/-- A pointer type is never beq-equal to a struct type. -/
theorem GoType.beq_ptr_structT (a : GoType) (fs : List (String × GoType)) :
    GoType.beq (.ptr a) (.structT fs) = false := by
  rw [GoType.beq.eq_def]

/-- Claim C9: for a slice field whose element type is a non-pointer struct,
the first matching sub-token (after any skipped empty tokens) builds a
pointer-typed sub-record whose append to the value-element slice is a
reflect fault: the decomposition errors with the append mismatch instead
of producing the list, and at the row level the fault is caught and
returned as the generic "catch panic" decode error. -/
theorem c9_value_element_append_fault (r : RowReader) (key text : String)
    (fts : List (String × GoType)) (pat : Pattern) (fv : GoValue)
    (pre rest : List String) (tk : String) (matched : List String)
    (sv : FieldsV)
    (hpat : lookupA r.pattern key = some pat)
    (hsplit : goSplit text r.Split = pre ++ tk :: rest)
    (hpre : ∀ u ∈ pre, pat u = none ∧ u = "")
    (hmatch : pat tk = some matched)
    (hfill : fillGroupsH (readBuiltinTypeF (GoType.sizeT (.structT fts)) r)
      key fts matched.tail 0 (zeroFields fts) = .ok sv) :
    readBuiltinType r key text (.slice (.structT fts)) fv =
      .error (.appendMismatch (.ptr (.structT fts)) (.structT fts)) ∧
    RowReader.Read (listReader ["1:a"])
        (.ptrV (.nilPtr (.structT [("L", listValT)]))) =
      (.ptrV (.ptrV (.structV [("L", listValT, .nilSliceV subRecT)])),
       some (.catchPanic (.appendMismatch (.ptr subRecT) subRecT))) := by
  constructor
  · have hd : decomposeH (readBuiltinTypeF (GoType.sizeT (.structT fts)) r)
        r key text pat (.structT fts) (.structT fts) (pre ++ tk :: rest) =
        .error (.appendMismatch (.ptr (.structT fts)) (.structT fts)) := by
      rw [decomposeH_skip_empty _ r key text pat _ _ pre _ hpre]
      rw [decomposeH]
      simp [hmatch, hfill, GoType.beq_ptr_structT]
    rw [readBuiltinType]
    have hsz : GoType.sizeT (.slice (.structT fts)) =
        GoType.sizeT (.structT fts) + 1 := by
      conv_lhs => rw [GoType.sizeT]
    rw [hsz]
    rw [readBuiltinTypeF]
    simp only [readBuiltinTypeStep, hpat, hsplit, hd]
  · simp [readBuiltinType, readBuiltinTypeF, readBuiltinTypeStep, GoType.sizeT, GoType.sizeFs,
          decomposeH, fillGroupsH, fillGroupsNonStruct,
          RowReader.Read, RowReader.ReadNoRecover, goIsNil, goTypeElem, typeOf,
          GoType.beq, GoType.beqFields, zeroFields, zeroValue, processCellsFrom,
          decodeCell, resolveCol, lookupUnm, lookupA, listReader, subRecT,
          listValT, setFieldV, goSplit, goSplitAux, List.isPrefixOf,
          digitsColonWord, isDigitCh, isWordCh, goParseInt, goParseUint,
          goParseUintRaw, goBaseSplit, goDigitsLoop, goDigitVal, lowerCh,
          maxUint64, underscoreOK, underscoreLoop]

/-- Witness for C9 at a concrete input: pattern ^(\d+):(\w+)$, cell
"1:a" for a []subRecT field. -/
theorem c9_value_element_append_fault_witness :
    readBuiltinType (listReader ["1:a"]) ("S.L") ("1:a") (.slice subRecT)
        (.nilSliceV subRecT) =
      .error (.appendMismatch (.ptr subRecT) subRecT) :=
  by
    have h := (c9_value_element_append_fault (listReader ["1:a"]) ("S.L")
      ("1:a") [("Field1", .int), ("Field2", .string)] digitsColonWord
      (.nilSliceV subRecT) [] [] ("1:a") ["1:a", "1", "a"]
      [("Field1", .int, .intV 1), ("Field2", .string, .stringV ("a"))]
      rfl rfl (by simp) rfl
      (by simp [fillGroupsH, readBuiltinTypeF, readBuiltinTypeStep, GoType.sizeT, GoType.sizeFs,
            zeroFields, zeroValue, setFieldV,
            goParseInt, goParseUintRaw, goBaseSplit, goDigitsLoop, goDigitVal,
            lowerCh, maxUint64, underscoreOK, underscoreLoop])).1
    simpa [subRecT] using h
